import Mathlib

/-!
Verification of the pay-per-query gateway core (invoice store, pricing
policy, on-chain payment verifier, provider registry and request
pipeline).  Each definition is a shallow embedding of the corresponding
JavaScript function; JS numbers are embedded as rationals where the
arithmetic is exact on the values in question, token amounts in base
units as integers, and timestamps as integers (milliseconds).
-/

namespace SolHub

/-- A positional JSON-RPC parameter as inspected by the pricing policy:
a number, a string, an options object (of which only `limit` is read),
or anything else. -/
inductive JParam where
  | jnum (q : ℚ)
  | jstr (s : String)
  | jobj (limit : Option ℚ)
  | jother
deriving DecidableEq

/-- The `DEFAULT_PRICES` table of `src/utils/pricing.js` (USDC). -/
def defaultPrices (method : String) : Option ℚ :=
  if method = "getHealth" then some (1/10000)
  else if method = "getSlot" then some (1/10000)
  else if method = "getBlockHeight" then some (1/10000)
  else if method = "getEpochInfo" then some (1/10000)
  else if method = "getBlockTime" then some (3/10000)
  else if method = "getFirstAvailableBlock" then some (3/10000)
  else if method = "getBlock" then some (1/1000)
  else if method = "getTransaction" then some (1/2000)
  else if method = "getSignaturesForAddress" then some (1/1250)
  else if method = "default" then some (1/1000)
  else none

/-- Base price resolution of `calculatePrice`: the table entry (falling
back to `DEFAULT_PRICES.default`), overridden by the environment
variable `PRICE_<METHOD-uppercased>` when present.  The environment is
embedded as a partial map from the uppercased variable suffix to the
parsed price. -/
def basePrice (env : String → Option ℚ) (method : String) : ℚ :=
  let tablePrice := (defaultPrices method).getD (1/1000)
  match env method.toUpper with
  | some v => v
  | none => tablePrice

/-- The multiplier block of `calculatePrice` in `src/utils/pricing.js`:
`multiplier` starts at 1 and is reassigned by three successive `if`
statements (deep-historical, real-time, bulk-query). -/
def contextMultiplier (method : String) (params : List JParam) : ℚ :=
  let m1 : ℚ :=
    if method = "getBlock" ∨ method = "getTransaction" then
      match params.head? with
      | some (JParam.jnum slot) => if slot < 100000 then 3/2 else 1
      | _ => 1
    else 1
  let m2 : ℚ :=
    if method = "getSlot" ∨ method = "getBlockHeight" then 4/5 else m1
  let m3 : ℚ :=
    if method = "getSignaturesForAddress" then
      match params.get? 1 with
      | some (JParam.jobj (some limit)) => if limit > 10 then 13/10 else m2
      | _ => m2
    else m2
  m3

/-- JavaScript `Math.round` (half toward positive infinity) on an exact
rational. -/
def jsRound (q : ℚ) : ℤ := ⌊q + 1/2⌋

/-- Rounding to six decimal places, `Math.round(x * 1000000) / 1000000`. -/
def round6 (q : ℚ) : ℚ := (jsRound (q * 1000000) : ℚ) / 1000000

/-- `calculatePrice(method, params)` of `src/utils/pricing.js`. -/
def calculatePrice (env : String → Option ℚ) (method : String)
    (params : List JParam) : ℚ :=
  round6 (basePrice env method * contextMultiplier method params)

/-- The empty environment (no `PRICE_*` overrides). -/
def env0 : String → Option ℚ := fun _ => none

/-- One row of a pre/post token-balance table: `accountIndex`,
`mint`, the parsed `uiTokenAmount.amount` in base units, and `owner`. -/
structure TokenBal where
  accountIndex : ℕ
  mint : String
  amount : ℤ
  owner : String
deriving DecidableEq

/-- The parts of a fetched transaction read by the verifier: whether
`meta.err` is set, and the two token-balance tables (which may be
absent). -/
structure TxMeta where
  failed : Bool
  preTokenBalances : Option (List TokenBal)
  postTokenBalances : Option (List TokenBal)
deriving DecidableEq

/-- Structured form of the verifier's `reason` strings. -/
inductive VerifyReason where
  | txNotFound
  | txFailed
  | noTokenBalanceChanges
  | wrongMint (actual : String) (expected : String)
  | noValidTransfer
  | verificationError
deriving DecidableEq

/-- The `{valid, reason?}` result shared by the verifiers. -/
structure VerifyResult where
  valid : Bool
  reason : Option VerifyReason
deriving DecidableEq

/-- The amount test of `verifyPaymentOnChain`: a positive balance
change within 100 base units of the expected amount. -/
def amountMatches (expectedLamports change : ℤ) : Bool :=
  decide (0 < change) && decide (|change - expectedLamports| < 100)

/-- The `for` loop of `verifyPaymentOnChain` over the post
token-balance rows: each row's matching pre row is looked up by
`accountIndex` (skip when absent), a row on a different mint records
the wrong-mint diagnostic and is skipped, and the first matched row
with a positive change within tolerance accepts (`break`).  Returns
`(validTransfer, actualMint)` where `actualMint` is the last
wrong-mint diagnostic recorded (`wrongMintDetected` is its
presence). -/
def scanBalances (mint : String) (expectedLamports : ℤ)
    (pres : List TokenBal) (wrongMint : Option String) :
    List TokenBal → Bool × Option String
  | [] => (false, wrongMint)
  | post :: rest =>
    match pres.find? (fun p => p.accountIndex == post.accountIndex) with
    | none => scanBalances mint expectedLamports pres wrongMint rest
    | some pre =>
      if post.mint ≠ mint then
        scanBalances mint expectedLamports pres (some post.mint) rest
      else if amountMatches expectedLamports (post.amount - pre.amount) then
        (true, wrongMint)
      else
        scanBalances mint expectedLamports pres wrongMint rest

/-- `verifyPaymentOnChain` of `src/services/blockchainVerifier.js`.
The transaction fetch is embedded as an `Option TxMeta` argument and
`expectedLamports` is the expected amount in base units
(`parseFloat(expectedAmount) * 1_000_000`, exact on representable
amounts).  The `recipient` argument is accepted but, as in the source,
never decides acceptance (`ownerMatches` is computed but unused). -/
def verifyPaymentOnChain (tx : Option TxMeta) (expectedLamports : ℤ)
    (mint : String) (_recipient : String) : VerifyResult :=
  match tx with
  | none => ⟨false, some VerifyReason.txNotFound⟩
  | some meta =>
    if meta.failed then ⟨false, some VerifyReason.txFailed⟩
    else
      match meta.preTokenBalances, meta.postTokenBalances with
      | none, _ => ⟨false, some VerifyReason.noTokenBalanceChanges⟩
      | _, none => ⟨false, some VerifyReason.noTokenBalanceChanges⟩
      | some pres, some posts =>
        if pres.isEmpty ∨ posts.isEmpty then
          ⟨false, some VerifyReason.noTokenBalanceChanges⟩
        else
          match scanBalances mint expectedLamports pres none posts with
          | (true, _) => ⟨true, none⟩
          | (false, some actual) =>
            ⟨false, some (VerifyReason.wrongMint actual mint)⟩
          | (false, none) => ⟨false, some VerifyReason.noValidTransfer⟩

/-- Outcome of the facilitator response body scan in
`FacilitatorClient.verifyPayment`: the three truthiness checks
`data.verified === true`, `data.valid === true`,
`data.status === 'success'`, plus the fallback reason. -/
structure FacRespData where
  verified : Bool
  valid : Bool
  statusSuccess : Bool
  reason : Option String
deriving DecidableEq

/-- Outcome of the `axios.post` to the facilitator: a response body, an
error carrying a facilitator HTTP error response, or an error without a
response (network failure, timeout). -/
inductive AxiosOutcome where
  | resp (d : FacRespData)
  | errResp (msg : Option String)
  | errNet
deriving DecidableEq

/-- Outcome of `FacilitatorClient.verifyPayment` as seen by its caller:
a returned `{valid, reason?}` or a thrown exception. -/
inductive FacCallOut where
  | ret (valid : Bool) (reason : Option String)
  | thrown
deriving DecidableEq

/-- `FacilitatorClient.verifyPayment` of
`src/clients/facilitatorClient.js`: throws when no verify URL is
configured; on a response body, valid iff one of the three flags is
set; on an HTTP error response returns `{valid:false}`; on any other
error rethrows. -/
def facilitatorVerify (verifyUrlConfigured : Bool)
    (ax : AxiosOutcome) : FacCallOut :=
  if ¬verifyUrlConfigured then FacCallOut.thrown
  else
    match ax with
    | AxiosOutcome.resp d =>
      if d.verified || d.valid || d.statusSuccess then FacCallOut.ret true none
      else FacCallOut.ret false d.reason
    | AxiosOutcome.errResp m => FacCallOut.ret false m
    | AxiosOutcome.errNet => FacCallOut.thrown

/-- `verifyPayment` of `src/services/paymentService.js`.  When a
facilitator verify URL is configured the facilitator is called first:
a valid result is returned as-is, an invalid result falls through to
the on-chain verifier, and a thrown exception is caught by the
function's own `catch`, which returns `{valid:false, reason:
"Verification error: …"}`.  The on-chain verifier's result on the same
input is passed in as `onChain` (it never throws). -/
def verifyPaymentService (facConfigured : Bool) (ax : AxiosOutcome)
    (onChain : VerifyResult) : VerifyResult :=
  if facConfigured then
    match facilitatorVerify true ax with
    | FacCallOut.thrown => ⟨false, some VerifyReason.verificationError⟩
    | FacCallOut.ret true _ => ⟨true, none⟩
    | FacCallOut.ret false _ => onChain
  else onChain

/-- An invoice of the payment store: the fields written by
`sendPaymentRequired` and `markAsUsed` (timestamps in ms). -/
structure Invoice where
  amount : String
  method : String
  createdAt : ℤ
  used : Bool
  usedAt : Option ℤ
deriving DecidableEq

/-- The in-memory backend of `PaymentStore`: the `invoices` map,
embedded extensionally. -/
def MemStore : Type := String → Option Invoice

/-- Data passed to `PaymentStore.create` (the handler supplies
`amount`, `method`, `createdAt`). -/
structure CreateData where
  amount : String
  method : String
  createdAt : Option ℤ
deriving DecidableEq

/-- The in-memory TTL constant: 15 minutes in milliseconds, used by
`cleanup`. -/
def ttlMs : ℤ := 15 * 60 * 1000

/-- `PaymentStore.create` on the in-memory backend: stores
`{...data, createdAt: data.createdAt || Date.now(), used: false}`. -/
def memCreate (now : ℤ) (st : MemStore) (paymentId : String)
    (data : CreateData) : MemStore :=
  fun id =>
    if id = paymentId then
      some ⟨data.amount, data.method, data.createdAt.getD now, false, none⟩
    else st id

/-- `PaymentStore.get` on the in-memory backend: a plain map lookup,
with no expiry check. -/
def memGet (st : MemStore) (paymentId : String) : Option Invoice :=
  st paymentId

/-- `PaymentStore.markAsUsed` on the in-memory backend: looks the
invoice up and, when present, unconditionally sets `used = true` and
`usedAt = Date.now()`. -/
def memMarkAsUsed (now : ℤ) (st : MemStore) (paymentId : String) : MemStore :=
  match st paymentId with
  | none => st
  | some inv =>
    fun id =>
      if id = paymentId then some { inv with used := true, usedAt := some now }
      else st id

/-- `PaymentStore.cleanup`: evicts every invoice with
`now - createdAt > 15 * 60 * 1000` from the in-memory map. -/
def memCleanup (now : ℤ) (st : MemStore) : MemStore :=
  fun id =>
    match st id with
    | none => none
    | some inv => if now - inv.createdAt > ttlMs then none else some inv

/-- A provider record of the registry in
`src/services/providersService.js`. -/
structure Provider where
  id : String
  url : String
  pricing : ℚ
  reputation : ℚ
  uptime : ℚ
  latency : ℚ
  features : List String
deriving DecidableEq

/-- The `triton-old-faithful` registry entry. -/
def tritonProvider : Provider :=
  ⟨"triton-old-faithful", "oldFaithfulUrl", 1, 100, 999/10, 50,
    ["historical", "geyser", "high-throughput"]⟩

/-- The `solana-devnet-public` registry entry. -/
def publicProvider : Provider :=
  ⟨"solana-devnet-public", "publicUrl", 1/2, 85, 985/10, 120,
    ["standard", "free-tier"]⟩

/-- The `community-archive` registry entry. -/
def communityProvider : Provider :=
  ⟨"community-archive", "publicUrl", 3/10, 75, 95, 200,
    ["historical", "community-supported"]⟩

/-- The initial `providers` array, in registry insertion order. -/
def defaultProviders : List Provider :=
  [tritonProvider, publicProvider, communityProvider]

/-- The `providerHealth` side map, embedded as the
`consecutiveFailures` count per provider id (absent = never tracked;
selection reads only `health?.consecutiveFailures`). -/
def HealthMap : Type := String → Option ℕ

/-- The all-absent health map (no provider has been tracked). -/
def noHealth : HealthMap := fun _ => none

/-- The balanced score of `selectBestProvider`:
`(reputation/100)*40 + (uptime/100)*30 + (1-pricing)*20 +
(1 - latency/500)*10`. -/
def balancedScore (p : Provider) : ℚ :=
  p.reputation / 100 * 40 + p.uptime / 100 * 30 + (1 - p.pricing) * 20 +
    (1 - p.latency / 500) * 10

/-- The prefer-cheapest score of `selectBestProvider`:
`(1-pricing)*50 + (reputation/100)*30 + (uptime/100)*20`. -/
def cheapestScore (p : Provider) : ℚ :=
  (1 - p.pricing) * 50 + p.reputation / 100 * 30 + p.uptime / 100 * 20

/-- The balanced formula as the specification document writes it:
`reputation·0.4 + uptime·0.3 + (1−priceMultiplier)·0.2 +
(1 − latency/500)·0.1`, with reputation and uptime on their stored
0–100 scales.  Stated only to compare against `balancedScore`. -/
def specBalancedScore (p : Provider) : ℚ :=
  p.reputation * (2/5) + p.uptime * (3/10) + (1 - p.pricing) * (1/5) +
    (1 - p.latency / 500) * (1/10)

/-- The candidate filter of `selectBestProvider`: drop providers whose
tracked `consecutiveFailures` exceeds 3, and, when historical data is
required, providers without the `historical` feature. -/
def candidatesOf (health : HealthMap) (ps : List Provider)
    (requireHistorical : Bool) : List Provider :=
  ps.filter fun p =>
    (match health p.id with
     | some failures => !(decide (failures > 3))
     | none => true) &&
    (!requireHistorical || p.features.contains "historical")

/-- One comparison of the descending stable sort: keep the earlier
element unless the later one scores strictly higher. -/
def pickStep (score : Provider → ℚ) (best q : Provider) : Provider :=
  if score q > score best then q else best

/-- Result of sorting the scored candidates in descending score order
with JavaScript's stable `sort` and taking element 0: the first
list element attaining the maximal score. -/
def pickFirstMax (score : Provider → ℚ) : List Provider → Option Provider
  | [] => none
  | p :: ps => some (ps.foldl (pickStep score) p)

/-- `selectBestProvider` of `src/services/providersService.js`:
filter candidates, fall back to the whole registry when the filter
leaves nothing, score with the cheapest or balanced formula, and take
the highest score (ties to the earlier entry). -/
def selectBestProvider (health : HealthMap) (ps : List Provider)
    (requireHistorical preferCheapest : Bool) : Option Provider :=
  let candidates := candidatesOf health ps requireHistorical
  let pool := if candidates.isEmpty then ps else candidates
  pickFirstMax (if preferCheapest then cheapestScore else balancedScore) pool

/-- A JSON-RPC request id: string, number or null. -/
inductive JsonId where
  | num (n : ℤ)
  | str (s : String)
  | null
deriving DecidableEq

/-- The part of the inbound JSON-RPC envelope the proxy layer reads. -/
structure RpcBody where
  method : String
  id : JsonId
deriving DecidableEq

/-- Result of `fetchWithBestProvider`: an upstream response body
returned verbatim, or the constructed JSON-RPC error envelope
(which echoes the request id). -/
inductive ProxyResult where
  | upstream (data : String)
  | errorEnvelope (code : ℤ) (id : JsonId)
deriving DecidableEq

/-- The methods for which `fetchWithBestProvider` requires historical
data. -/
def historicalMethods : List String :=
  ["getBlock", "getTransaction", "getSignaturesForAddress"]

/-- `fetchWithBestProvider` of `src/services/providersService.js`.
Each provider call is embedded by its outcome `upstream` (keyed by
provider id): `some data` for a response, `none` for a thrown error
(HTTP error, network error or timeout).  The primary provider is
selected, then on failure the remaining providers are tried in
registry order; when everything fails the `-32603` envelope is
returned.  Health bookkeeping does not influence this request's
control flow and is not threaded. -/
def fetchWithBestProvider (health : HealthMap) (ps : List Provider)
    (upstream : String → Option String) (body : RpcBody) : ProxyResult :=
  let requireHistorical := historicalMethods.contains body.method
  match selectBestProvider health ps requireHistorical false with
  | none => ProxyResult.errorEnvelope (-32603) body.id
  | some primary =>
    match upstream primary.id with
    | some data => ProxyResult.upstream data
    | none =>
      match (ps.filter (fun p => p.id ≠ primary.id)).findSome?
          (fun p => upstream p.id) with
      | some data => ProxyResult.upstream data
      | none => ProxyResult.errorEnvelope (-32603) body.id

/-- Steps 5–7 of `handleRpc` after a successful verification: mark the
invoice used, fetch through the provider marketplace (settlement runs
in parallel and only shapes the receipt header), and answer HTTP 200
with the fetched body.  Neither the fetch nor the settlement can throw
here, so the 200 is unconditional in the source as well. -/
def handleAfterVerify (now : ℤ) (st : MemStore) (paymentId : String)
    (health : HealthMap) (ps : List Provider)
    (upstream : String → Option String) (body : RpcBody) :
    ℕ × ProxyResult × MemStore :=
  let st' := memMarkAsUsed now st paymentId
  let rpcResult := fetchWithBestProvider health ps upstream body
  (200, rpcResult, st')

/-- The decoded JSON of an `X-Payment` header as the validators read
it: the two expected fields (absent or present) and whether the object
carries any unknown key (`Joi ... .unknown(false)`). -/
structure PaymentPayload where
  txSignature : Option String
  paymentId : Option String
  hasUnknown : Bool
deriving DecidableEq

/-- The 402 error codes the header pipeline can produce. -/
inductive ErrCode where
  | invalidPaymentHeader
  | invalidPaymentPayload
  | invalidPaymentId
deriving DecidableEq

/-- Outcome of the `validatePaymentHeader` middleware. -/
inductive MWOut where
  | reject (e : ErrCode)
  | proceedNoPayment
  | proceedPayment (tx : String) (pid : String)
deriving DecidableEq

/-- Hexadecimal digit test (either case). -/
def isHexDigitChar (c : Char) : Bool :=
  c.isDigit || ('a' ≤ c && c ≤ 'f') || ('A' ≤ c && c ≤ 'F')

/-- Character-by-character check of the canonical RFC 4122 textual
form, as matched by the `uuid` package's `validate`: hyphens at
positions 8, 13, 18 and 23, a version digit 1–5 at position 14, a
variant digit 8/9/a/b at position 19, hex digits elsewhere. -/
def checkUuidChars : ℕ → List Char → Bool
  | _, [] => true
  | i, c :: rest =>
    (if i = 8 ∨ i = 13 ∨ i = 18 ∨ i = 23 then c = '-'
     else if i = 14 then '1' ≤ c && c ≤ '5'
     else if i = 19 then c ∈ ['8', '9', 'a', 'b', 'A', 'B']
     else isHexDigitChar c) &&
    checkUuidChars (i + 1) rest

/-- The `uuid` package's `validate`: the canonical v1–v5 format or the
nil UUID. -/
def uuidValidate (s : String) : Bool :=
  (s.length == 36 && checkUuidChars 0 s.data) ||
    s == "00000000-0000-0000-0000-000000000000"

/-- The `validatePaymentHeader` middleware of
`src/middleware/validation.js`.  The header is embedded already
decoded: `none` = no header (pass through), `some none` = base64/JSON
decode failure, `some (some p)` = decoded payload.  `joiGuid` is Joi's
GUID format test and `uuidOk` the `uuid` package's `validate` (both
external libraries, passed as parameters). -/
def validatePaymentHeaderMW (joiGuid uuidOk : String → Bool)
    (header : Option (Option PaymentPayload)) : MWOut :=
  match header with
  | none => MWOut.proceedNoPayment
  | some none => MWOut.reject ErrCode.invalidPaymentHeader
  | some (some p) =>
    match p.txSignature, p.paymentId with
    | some tx, some pid =>
      if (decide (80 ≤ tx.length) && decide (tx.length ≤ 100)) &&
          joiGuid pid && !p.hasUnknown then
        if uuidOk pid then MWOut.proceedPayment tx pid
        else MWOut.reject ErrCode.invalidPaymentId
      else MWOut.reject ErrCode.invalidPaymentHeader
    | _, _ => MWOut.reject ErrCode.invalidPaymentHeader

/-- Outcome of the header stage of the pipeline: a 402 with an error
code, the 402 payment challenge (no header), or entry into the paid
path with the receipt fields. -/
inductive PipeOut where
  | err402 (e : ErrCode)
  | challenge
  | proceed (tx : String) (pid : String)
deriving DecidableEq

/-- Steps 1–2 of `handleRpc`: re-decode the raw header (no header →
challenge; decode failure → `invalid_payment_header`; missing or empty
`txSignature`/`paymentId` → `invalid_payment_payload`). -/
def handleRpcHeaderStage (header : Option (Option PaymentPayload)) : PipeOut :=
  match header with
  | none => PipeOut.challenge
  | some none => PipeOut.err402 ErrCode.invalidPaymentHeader
  | some (some p) =>
    match p.txSignature, p.paymentId with
    | some tx, some pid =>
      if tx = "" ∨ pid = "" then PipeOut.err402 ErrCode.invalidPaymentPayload
      else PipeOut.proceed tx pid
    | _, _ => PipeOut.err402 ErrCode.invalidPaymentPayload

/-- The route `app.post('/', validateRpcRequest, validatePaymentHeader,
handleRpc)`: the middleware runs first and only on its pass-through
does the handler's own header parsing run (on the same raw header). -/
def pipelineHeaderCheck (joiGuid uuidOk : String → Bool)
    (header : Option (Option PaymentPayload)) : PipeOut :=
  match validatePaymentHeaderMW joiGuid uuidOk header with
  | MWOut.reject e => PipeOut.err402 e
  | MWOut.proceedNoPayment => handleRpcHeaderStage header
  | MWOut.proceedPayment _ _ => handleRpcHeaderStage header

/-- Program counter of one request consuming a `paymentId`, at the
yield points of `handleRpc`: `start` = about to run step 3
(`paymentStore.get` and the `invoice.used` test); `verified` = past
the awaited verification, about to run step 5 (`markAsUsed`) and
answer 200; `done s` = responded with HTTP status `s`.  Verification
succeeds off-store, and `get`+check and `markAsUsed`+respond are each
generously treated as atomic: the race below exists even so. -/
inductive ConsumePhase where
  | start
  | verified
  | done (status : ℕ)
deriving DecidableEq

/-- Joint state of the shared `used` flag of one invoice and two
concurrent requests presenting its `paymentId`. -/
structure RaceState where
  used : Bool
  r1 : ConsumePhase
  r2 : ConsumePhase
deriving DecidableEq

/-- Request identifier for the two-request schedule. -/
inductive Rid where
  | one
  | two
deriving DecidableEq

/-- One atomic step of a consuming request against the shared flag:
from `start`, read `used` (already used → respond 402
`payment_already_used`; else proceed to verification); from
`verified`, mark the invoice used and respond 200. -/
def consumeStep (used : Bool) : ConsumePhase → ConsumePhase × Bool
  | ConsumePhase.start =>
    if used then (ConsumePhase.done 402, used) else (ConsumePhase.verified, used)
  | ConsumePhase.verified => (ConsumePhase.done 200, true)
  | ConsumePhase.done s => (ConsumePhase.done s, used)

/-- Run one step of the scheduled request. -/
def raceStep (st : RaceState) : Rid → RaceState
  | Rid.one =>
    let (p, u) := consumeStep st.used st.r1
    ⟨u, p, st.r2⟩
  | Rid.two =>
    let (p, u) := consumeStep st.used st.r2
    ⟨u, st.r1, p⟩

/-- Run a schedule (an interleaving of the two requests' steps). -/
def raceRun : List Rid → RaceState → RaceState
  | [], st => st
  | r :: rest, st => raceRun rest (raceStep st r)

/-- Initial state: one freshly minted, unused invoice and both
requests about to read it. -/
def raceInit : RaceState := ⟨false, ConsumePhase.start, ConsumePhase.start⟩

/-- The empty in-memory store. -/
def emptyStore : MemStore := fun _ => none

/-- A consumed invoice (`used = true`, `usedAt = 100`). -/
def usedInvoice : Invoice := ⟨"0.001000", "getBlock", 0, true, some 100⟩

/-- A store holding the consumed invoice under id `"p"`. -/
def usedStore : MemStore :=
  fun id => if id = "p" then some usedInvoice else none

/-- A fresh unused invoice created at time 0. -/
def freshInvoice : Invoice := ⟨"0.001000", "getBlock", 0, false, none⟩

/-- A store holding the fresh invoice under id `"p"`. -/
def freshStore : MemStore :=
  fun id => if id = "p" then some freshInvoice else none

/-- A canonical version-4 UUID string. -/
def sampleUuid : String := "3f2504e0-4f89-41d3-9a0c-0305e82c3301"

theorem foldlPick_spec (score : Provider → ℚ) (l : List Provider) :
    ∀ b : Provider, ∃ l1 l2,
      b :: l = l1 ++ (l.foldl (pickStep score) b) :: l2 ∧
      (∀ q ∈ l1, score q < score (l.foldl (pickStep score) b)) ∧
      (∀ q ∈ b :: l, score q ≤ score (l.foldl (pickStep score) b)) := by
  induction l with
  | nil =>
    intro b
    refine ⟨[], [], rfl, by simp, ?_⟩
    intro x hx
    have hxb : x = b := by simpa using hx
    simp [hxb, List.foldl]
  | cons q l ih =>
    intro b
    by_cases hq : score q > score b
    · have hfold : (q :: l).foldl (pickStep score) b = l.foldl (pickStep score) q := by
        simp [List.foldl_cons, pickStep, if_pos hq]
      obtain ⟨l1, l2, hsplit, hlt, hle⟩ := ih q
      rw [hfold]
      have hqle : score q ≤ score (l.foldl (pickStep score) q) :=
        hle q (List.mem_cons_self q l)
      refine ⟨b :: l1, l2, ?_, ?_, ?_⟩
      · rw [List.cons_append, ← hsplit]
      · intro x hx
        rcases List.mem_cons.mp hx with h | h
        · subst h
          exact lt_of_lt_of_le hq hqle
        · exact hlt x h
      · intro x hx
        rcases List.mem_cons.mp hx with h | h
        · subst h
          exact le_of_lt (lt_of_lt_of_le hq hqle)
        · exact hle x h
    · have hfold : (q :: l).foldl (pickStep score) b = l.foldl (pickStep score) b := by
        simp [List.foldl_cons, pickStep, if_neg hq]
      obtain ⟨l1, l2, hsplit, hlt, hle⟩ := ih b
      rw [hfold]
      cases l1 with
      | nil =>
        have hp : b = l.foldl (pickStep score) b ∧ l = l2 := by
          rw [List.nil_append, List.cons.injEq] at hsplit
          exact hsplit
        refine ⟨[], q :: l2, ?_, by simp, ?_⟩
        · rw [List.nil_append, ← hp.1, ← hp.2]
        · intro x hx
          rcases List.mem_cons.mp hx with h | h
          · rw [h]
            exact hle b (List.mem_cons_self b l)
          · rcases List.mem_cons.mp h with h2 | h2
            · subst h2
              rw [← hp.1]
              exact not_lt.mp hq
            · exact hle x (List.mem_cons_of_mem b h2)
      | cons a l1 =>
        have hp : b = a ∧ l = l1 ++ (l.foldl (pickStep score) b) :: l2 := by
          rw [List.cons_append, List.cons.injEq] at hsplit
          exact hsplit
        have hblt : score b < score (l.foldl (pickStep score) b) := by
          have := hlt a (List.mem_cons_self a l1)
          rw [← hp.1] at this
          exact this
        refine ⟨b :: q :: l1, l2, ?_, ?_, ?_⟩
        · rw [List.cons_append, List.cons_append, ← hp.2]
        · intro x hx
          rcases List.mem_cons.mp hx with h | h
          · subst h
            exact hblt
          · rcases List.mem_cons.mp h with h2 | h2
            · subst h2
              exact lt_of_le_of_lt (not_lt.mp hq) hblt
            · exact hlt x (List.mem_cons_of_mem a h2)
        · intro x hx
          rcases List.mem_cons.mp hx with h | h
          · subst h
            exact le_of_lt hblt
          · rcases List.mem_cons.mp h with h2 | h2
            · subst h2
              exact le_of_lt (lt_of_le_of_lt (not_lt.mp hq) hblt)
            · exact hle x (List.mem_cons_of_mem b h2)

theorem pickFirstMax_spec (score : Provider → ℚ) {l : List Provider} {r : Provider}
    (h : pickFirstMax score l = some r) :
    r ∈ l ∧ (∀ q ∈ l, score q ≤ score r) ∧
      ∃ l1 l2, l = l1 ++ r :: l2 ∧ ∀ q ∈ l1, score q < score r := by
  cases l with
  | nil => simp [pickFirstMax] at h
  | cons b t =>
    have hr : t.foldl (pickStep score) b = r := by
      simpa [pickFirstMax] using h
    obtain ⟨l1, l2, hsplit, hlt, hle⟩ := foldlPick_spec score t b
    rw [hr] at hsplit hlt hle
    refine ⟨?_, hle, l1, l2, hsplit, hlt⟩
    rw [hsplit]
    exact List.mem_append_right l1 (List.mem_cons_self r l2)

theorem selectBestProvider_mem {health : HealthMap} {ps : List Provider}
    {rh pc : Bool} {p : Provider}
    (h : selectBestProvider health ps rh pc = some p) : p ∈ ps := by
  unfold selectBestProvider at h
  by_cases he : (candidatesOf health ps rh).isEmpty
  · simp only [he, if_true] at h
    exact (pickFirstMax_spec _ h).1
  · simp only [he, if_false] at h
    exact List.mem_of_mem_filter (pickFirstMax_spec _ h).1

theorem scanBalances_single (mint : String) (preAmt postAmt expected : ℤ) :
    scanBalances mint expected [⟨0, mint, preAmt, "o"⟩] none [⟨0, mint, postAmt, "o"⟩]
      = (amountMatches expected (postAmt - preAmt), none) := by
  unfold scanBalances
  simp only [List.find?]
  norm_num
  cases hb : amountMatches expected (postAmt - preAmt) <;> simp [hb, scanBalances]

/-- C1.  The specification requires that for a given `paymentId` at
most one request observes `used = false` and transitions it, all
others answering 402 `payment_already_used`.  The code violates this:
`handleRpc` reads `used` (step 3), suspends on the awaited
verification, and only then calls `markAsUsed`, which is itself an
unconditional read-then-write with no lock (on the Redis backend a
non-atomic GET followed by SETEX).  Under the interleaving R1-read,
R2-read, R1-mark, R2-mark both requests observe `used = false` and
both respond 200. -/
theorem c1_concurrent_double_spend :
    (raceRun [Rid.one, Rid.two, Rid.one, Rid.two] raceInit).r1 = ConsumePhase.done 200 ∧
    (raceRun [Rid.one, Rid.two, Rid.one, Rid.two] raceInit).r2 = ConsumePhase.done 200 := by
  decide

/-- C2.  For a pre/post token-balance pair on the expected mint the
on-chain verifier accepts exactly when the balance change is positive
and within strictly 100 base units of the expected amount; in
particular a difference of 99 is accepted and one of 100 rejected. -/
theorem c2_tolerance_boundary :
    (∀ (mint : String) (preAmt postAmt expected : ℤ),
      (verifyPaymentOnChain
          (some ⟨false, some [⟨0, mint, preAmt, "o"⟩], some [⟨0, mint, postAmt, "o"⟩]⟩)
          expected mint "R").valid = true ↔
        0 < postAmt - preAmt ∧ |postAmt - preAmt - expected| < 100) ∧
    (verifyPaymentOnChain
        (some ⟨false, some [⟨0, "M", 0, "o"⟩], some [⟨0, "M", 1099, "o"⟩]⟩)
        1000 "M" "R").valid = true ∧
    (verifyPaymentOnChain
        (some ⟨false, some [⟨0, "M", 0, "o"⟩], some [⟨0, "M", 1100, "o"⟩]⟩)
        1000 "M" "R").valid = false := by
  refine ⟨?_, by decide, by decide⟩
  intro mint preAmt postAmt expected
  have h := scanBalances_single mint preAmt postAmt expected
  have hv : verifyPaymentOnChain
      (some ⟨false, some [⟨0, mint, preAmt, "o"⟩], some [⟨0, mint, postAmt, "o"⟩]⟩)
      expected mint "R"
      = (if amountMatches expected (postAmt - preAmt) then (⟨true, none⟩ : VerifyResult)
         else ⟨false, some VerifyReason.noValidTransfer⟩) := by
    show (match scanBalances mint expected [⟨0, mint, preAmt, "o"⟩] none
        [⟨0, mint, postAmt, "o"⟩] with
      | (true, _) => ({ valid := true, reason := none } : VerifyResult)
      | (false, some actual) =>
        { valid := false, reason := some (VerifyReason.wrongMint actual mint) }
      | (false, none) =>
        { valid := false, reason := some VerifyReason.noValidTransfer }) = _
    rw [h]
    cases hb : amountMatches expected (postAmt - preAmt) <;> simp [hb]
  rw [hv]
  simp only [amountMatches, Bool.and_eq_true, decide_eq_true_eq]
  split_ifs with hcond
  · exact iff_of_true rfl hcond
  · exact iff_of_false (by simp) hcond

/-- C4 (amended).  A thrown facilitator exception is caught by
`verifyPayment`'s own catch, which returns `{valid:false}` without
consulting the on-chain verifier; only a facilitator call that
completes with `valid:false` (including facilitator HTTP error
responses, which the client converts to `{valid:false}`) falls through
to the on-chain algorithm.  The exception thus never causes a
payment-accepted response, but it does prevent on-chain verification
for that request. -/
theorem c4_exception_fails_closed (onChain : VerifyResult)
    (m r : Option String) :
    verifyPaymentService true AxiosOutcome.errNet onChain
        = ⟨false, some VerifyReason.verificationError⟩ ∧
    verifyPaymentService true (AxiosOutcome.errResp m) onChain = onChain ∧
    verifyPaymentService true (AxiosOutcome.resp ⟨false, false, false, r⟩) onChain
        = onChain := by
  exact ⟨rfl, rfl, rfl⟩

/-- C4, counterexample to the claim as stated: on an input where the
on-chain algorithm would accept, a facilitator network exception makes
`verifyPayment` return `{valid:false, reason:"Verification error…"}` —
the on-chain algorithm is not consulted, so its verdict is lost. -/
theorem c4_counterexample :
    verifyPaymentService true AxiosOutcome.errNet ⟨true, none⟩
        = ⟨false, some VerifyReason.verificationError⟩ ∧
    (⟨false, some VerifyReason.verificationError⟩ : VerifyResult) ≠ ⟨true, none⟩ := by
  decide

/-- C5 (amended).  On an already-used invoice `markAsUsed` keeps
`used = true` but unconditionally overwrites `usedAt` with the current
time (the in-memory branch sets `invoice.usedAt = Date.now()` with no
guard; the Redis branch rewrites the record the same way). -/
theorem c5_markUsed_overwrites_usedAt (st : MemStore) (id : String)
    (inv : Invoice) (now : ℤ) (hlook : st id = some inv)
    (_hused : inv.used = true) :
    memMarkAsUsed now st id id = some { inv with used := true, usedAt := some now } := by
  unfold memMarkAsUsed
  rw [hlook]
  simp

/-- C5, witness for `c5_markUsed_overwrites_usedAt` at the consumed
invoice. -/
theorem c5_markUsed_overwrites_usedAt_witness :
    memMarkAsUsed 200 usedStore "p" "p"
      = some { usedInvoice with used := true, usedAt := some 200 } :=
  c5_markUsed_overwrites_usedAt usedStore "p" usedInvoice 200 rfl rfl

/-- C5, counterexample to the claim as stated: a second `markAsUsed`
on the invoice consumed at time 100 moves `usedAt` to time 200 — not a
no-op at the store layer. -/
theorem c5_counterexample :
    memMarkAsUsed 200 usedStore "p" "p"
      = some ⟨"0.001000", "getBlock", 0, true, some 200⟩ ∧
    usedStore "p" = some ⟨"0.001000", "getBlock", 0, true, some 100⟩ ∧
    some (200 : ℤ) ≠ some (100 : ℤ) := by
  refine ⟨?_, by decide, by decide⟩
  decide

/-- C3 (amended).  On the in-memory backend an invoice older than its
TTL is evicted by the periodic sweep: after `cleanup` runs at a time
more than `ttl` past `createdAt`, `get` returns nothing. -/
theorem c3_cleanup_expires (st : MemStore) (paymentId : String)
    (inv : Invoice) (now : ℤ) (hlook : st paymentId = some inv)
    (hexp : now - inv.createdAt > ttlMs) :
    memGet (memCleanup now st) paymentId = none := by
  unfold memGet memCleanup
  rw [hlook]
  show (if now - inv.createdAt > ttlMs then (none : Option Invoice) else some inv) = none
  rw [if_pos hexp]

/-- C3, witness for `c3_cleanup_expires`: an invoice created at time 0
is gone from `get` once a sweep has run at time 900001. -/
theorem c3_cleanup_expires_witness :
    (memCreate 0 emptyStore "p" ⟨"0.001000", "getBlock", none⟩) "p"
        = some freshInvoice ∧
    (900001 : ℤ) - freshInvoice.createdAt > ttlMs ∧
    memGet (memCleanup 900001 (memCreate 0 emptyStore "p" ⟨"0.001000", "getBlock", none⟩))
        "p" = none :=
  ⟨by decide, by decide,
    c3_cleanup_expires _ "p" freshInvoice 900001 (by decide) (by decide)⟩

/-- C3, counterexample to the claim as stated: the in-memory `get` has
no expiry check at all (it takes no clock), so with no sweep between
`create` (time 0) and a read past the TTL (time 900001 > 900000 ms)
the invoice is still returned, not nil. -/
theorem c3_counterexample :
    memGet (memCreate 0 emptyStore "p" ⟨"0.001000", "getBlock", none⟩) "p"
        = some freshInvoice ∧
    freshInvoice.createdAt = 0 ∧
    (900001 : ℤ) - 0 > ttlMs := by
  decide

/-- C6 (amended).  The deep-historical multiplier 1.5 applies exactly
when the method is `getBlock` or `getTransaction` and the first
positional parameter is a *number* strictly below 100,000 (the source
checks `typeof slot === 'number'`, not integrality); `getBlock` at
slot 99999 is priced at `1.5 ×` base = 0.0015 and at slot 100000 at
`1.0 ×` base = 0.001, after rounding to six decimals. -/
theorem c6_deep_historical_multiplier :
    (∀ (method : String) (params : List JParam),
      contextMultiplier method params = 3/2 ↔
        ((method = "getBlock" ∨ method = "getTransaction") ∧
          ∃ q : ℚ, params.head? = some (JParam.jnum q) ∧ q < 100000)) ∧
    calculatePrice env0 "getBlock" [JParam.jnum 99999] = 3/2000 ∧
    calculatePrice env0 "getBlock" [JParam.jnum 100000] = 1/1000 := by
  refine ⟨?_,
    by
      simp [calculatePrice, basePrice, contextMultiplier, defaultPrices, env0,
        round6, jsRound]
      norm_num,
    by
      simp [calculatePrice, basePrice, contextMultiplier, defaultPrices, env0,
        round6, jsRound]
      norm_num⟩
  intro method params
  by_cases hsig : method = "getSignaturesForAddress"
  · subst hsig
    have h1 : ¬("getSignaturesForAddress" = "getBlock" ∨
        "getSignaturesForAddress" = "getTransaction") := by decide
    have h2 : ¬("getSignaturesForAddress" = "getSlot" ∨
        "getSignaturesForAddress" = "getBlockHeight") := by decide
    rcases hg : params[1]? with _ | p
    · norm_num [contextMultiplier, hg, h1, h2]
    · cases p with
      | jobj lim =>
        rcases lim with _ | l
        · norm_num [contextMultiplier, hg, h1, h2]
        · by_cases hl : l > 10 <;> norm_num [contextMultiplier, hg, hl, h1, h2]
      | jnum q => norm_num [contextMultiplier, hg, h1, h2]
      | jstr s => norm_num [contextMultiplier, hg, h1, h2]
      | jother => norm_num [contextMultiplier, hg, h1, h2]
  · by_cases hslot : method = "getSlot" ∨ method = "getBlockHeight"
    · have h1 : ¬(method = "getBlock" ∨ method = "getTransaction") := by
        rcases hslot with h | h <;> subst h <;> decide
      norm_num [contextMultiplier, hsig, hslot, h1]
    · by_cases hdeep : method = "getBlock" ∨ method = "getTransaction"
      · rcases hh : params.head? with _ | p
        · norm_num [contextMultiplier, hsig, hslot, hdeep, hh]
          intro x hx
          simp at hx
        · cases p with
          | jnum q =>
            by_cases hq : q < 100000 <;>
              norm_num [contextMultiplier, hsig, hslot, hdeep, hh, hq]
          | jstr s =>
            norm_num [contextMultiplier, hsig, hslot, hdeep, hh]
            intro x hx
            simp at hx
          | jobj lim =>
            norm_num [contextMultiplier, hsig, hslot, hdeep, hh]
            intro x hx
            simp at hx
          | jother =>
            norm_num [contextMultiplier, hsig, hslot, hdeep, hh]
            intro x hx
            simp at hx
      · norm_num [contextMultiplier, hsig, hslot, hdeep]

/-- C6, counterexample to the claim as stated: slot 99999.5 is a
number below 100,000 but not an integer, yet the multiplier fires and
`getBlock` is priced at 0.0015 instead of the base 0.001. -/
theorem c6_counterexample :
    contextMultiplier "getBlock" [JParam.jnum (199999/2)] = 3/2 ∧
    calculatePrice env0 "getBlock" [JParam.jnum (199999/2)] = 3/2000 ∧
    ¬ ∃ n : ℤ, ((199999 : ℚ)/2) = (n : ℚ) := by
  refine ⟨by
      simp [contextMultiplier]
      norm_num,
    by
      simp [calculatePrice, basePrice, contextMultiplier, defaultPrices, env0,
        round6, jsRound]
      norm_num, ?_⟩
  rintro ⟨n, hn⟩
  have h2 : (199999 : ℚ) = 2 * (n : ℚ) := by linarith
  have h3 : (199999 : ℤ) = 2 * n := by exact_mod_cast h2
  omega

/-- When the candidate set is non-empty, selection in balanced mode is
the first maximum of `balancedScore` over the candidates. -/
theorem selectBest_eq_pick (health : HealthMap) (ps : List Provider)
    (rh : Bool) (h : candidatesOf health ps rh ≠ []) :
    selectBestProvider health ps rh false
      = pickFirstMax balancedScore (candidatesOf health ps rh) := by
  have he : (candidatesOf health ps rh).isEmpty = false := by
    rcases hc : candidatesOf health ps rh
    · exact absurd hc h
    · rfl
  unfold selectBestProvider
  simp [he]

/-- C7 (amended).  With a non-empty healthy candidate set, balanced
selection returns a provider attaining the maximum of the code's
balanced score — `(reputation/100)·40 + (uptime/100)·30 +
(1−priceMultiplier)·20 + (1−latency/500)·10`, whose price and latency
terms carry weights 20 and 10, not the specification's 0.2 and 0.1 —
and ties go to the earliest registry entry. -/
theorem c7_balanced_selection (health : HealthMap) (ps : List Provider)
    (requireHistorical : Bool)
    (h : candidatesOf health ps requireHistorical ≠ []) :
    ∃ p, selectBestProvider health ps requireHistorical false = some p ∧
      p ∈ candidatesOf health ps requireHistorical ∧
      (∀ q ∈ candidatesOf health ps requireHistorical,
        balancedScore q ≤ balancedScore p) ∧
      ∃ l1 l2, candidatesOf health ps requireHistorical = l1 ++ p :: l2 ∧
        ∀ q ∈ l1, balancedScore q < balancedScore p := by
  rcases hc : candidatesOf health ps requireHistorical with _ | ⟨b, t⟩
  · exact absurd hc h
  · have hpick : pickFirstMax balancedScore (candidatesOf health ps requireHistorical)
        = some (t.foldl (pickStep balancedScore) b) := by
      rw [hc]
      rfl
    obtain ⟨hmem, hle, l1, l2, hsplit, hlt⟩ := pickFirstMax_spec balancedScore hpick
    rw [hc] at hmem hle hsplit
    have hne : candidatesOf health ps requireHistorical ≠ [] := by
      rw [hc]
      exact List.cons_ne_nil b t
    exact ⟨_, (selectBest_eq_pick health ps requireHistorical hne).trans hpick,
      hmem, hle, l1, l2, hsplit, hlt⟩

/-- C7, witness for `c7_balanced_selection` on the default registry
with no health records. -/
theorem c7_balanced_selection_witness :
    candidatesOf noHealth defaultProviders false ≠ [] ∧
    (∃ p, selectBestProvider noHealth defaultProviders false false = some p ∧
      p ∈ candidatesOf noHealth defaultProviders false ∧
      (∀ q ∈ candidatesOf noHealth defaultProviders false,
        balancedScore q ≤ balancedScore p) ∧
      ∃ l1 l2, candidatesOf noHealth defaultProviders false = l1 ++ p :: l2 ∧
        ∀ q ∈ l1, balancedScore q < balancedScore p) :=
  ⟨by decide, c7_balanced_selection noHealth defaultProviders false (by decide)⟩

/-- C7, counterexample to the claim as stated: on the default registry
(all healthy) balanced selection returns `solana-devnet-public`, yet
under the specification's formula `reputation·0.4 + uptime·0.3 +
(1−priceMultiplier)·0.2 + (1−latency/500)·0.1` the candidate
`triton-old-faithful` scores strictly higher, so the chosen provider
does not attain the spec-formula maximum. -/
theorem candidatesOf_default :
    candidatesOf noHealth defaultProviders false = defaultProviders := by
  simp [candidatesOf, noHealth, defaultProviders]

theorem balancedScore_triton : balancedScore tritonProvider = 7897/100 := by
  norm_num [balancedScore, tritonProvider]

theorem balancedScore_public : balancedScore publicProvider = 1623/20 := by
  norm_num [balancedScore, publicProvider]

theorem balancedScore_community : balancedScore communityProvider = 157/2 := by
  norm_num [balancedScore, communityProvider]

theorem c7_counterexample :
    selectBestProvider noHealth defaultProviders false false = some publicProvider ∧
    tritonProvider ∈ candidatesOf noHealth defaultProviders false ∧
    specBalancedScore publicProvider < specBalancedScore tritonProvider := by
  refine ⟨?_, ?_, ?_⟩
  · have h1 : pickStep balancedScore tritonProvider publicProvider = publicProvider := by
      unfold pickStep
      rw [balancedScore_triton, balancedScore_public, if_pos (by norm_num)]
    have h2 : pickStep balancedScore publicProvider communityProvider = publicProvider := by
      unfold pickStep
      rw [balancedScore_public, balancedScore_community, if_neg (by norm_num)]
    rw [selectBest_eq_pick noHealth defaultProviders false
        (by rw [candidatesOf_default]; decide), candidatesOf_default]
    show some (List.foldl (pickStep balancedScore) tritonProvider
      [publicProvider, communityProvider]) = some publicProvider
    rw [List.foldl_cons, h1, List.foldl_cons, h2, List.foldl_nil]
  · rw [candidatesOf_default]
    exact List.mem_cons_self tritonProvider _
  · norm_num [specBalancedScore, tritonProvider, publicProvider]

/-- C8 (amended).  Behind the route `validateRpcRequest →
validatePaymentHeader → handleRpc`, a decoded payload with a missing
`txSignature` — or any schema failure, including a `paymentId` the
schema's GUID test rejects — is answered 402 `invalid_payment_header`
by the middleware (never `invalid_payment_payload`, whose handler
branch is unreachable behind the middleware); a `paymentId` passing
the GUID test but failing the strict `uuid.validate` check is
answered 402 `invalid_payment_id`; an undecodable header is answered
402 `invalid_payment_header`. -/
theorem c8_validation_error_codes (joiGuid uuidOk : String → Bool)
    (p : PaymentPayload) :
    (p.txSignature = none ∨ p.paymentId = none ∨
        (∃ pid, p.paymentId = some pid ∧ joiGuid pid = false) →
      pipelineHeaderCheck joiGuid uuidOk (some (some p))
        = PipeOut.err402 ErrCode.invalidPaymentHeader) ∧
    pipelineHeaderCheck joiGuid uuidOk (some none)
        = PipeOut.err402 ErrCode.invalidPaymentHeader ∧
    (∀ tx pid, p.txSignature = some tx → p.paymentId = some pid →
      80 ≤ tx.length → tx.length ≤ 100 → joiGuid pid = true →
      p.hasUnknown = false → uuidOk pid = false →
      pipelineHeaderCheck joiGuid uuidOk (some (some p))
        = PipeOut.err402 ErrCode.invalidPaymentId) := by
  refine ⟨?_, rfl, ?_⟩
  · intro h
    unfold pipelineHeaderCheck validatePaymentHeaderMW
    rcases htx : p.txSignature with _ | tx
    · simp [htx]
    · rcases hpid : p.paymentId with _ | pid
      · simp [htx, hpid]
      · rcases h with h | h | ⟨pid', hpid', hg⟩
        · rw [htx] at h
          simp at h
        · rw [hpid] at h
          simp at h
        · rw [hpid] at hpid'
          injection hpid' with he
          subst he
          simp [htx, hpid, hg]
  · intro tx pid htx hpid h80 h100 hg hunk huk
    unfold pipelineHeaderCheck validatePaymentHeaderMW
    simp [htx, hpid, h80, h100, hg, hunk, huk]

/-- C8, witness for `c8_validation_error_codes`: a payload carrying a
valid UUID but no `txSignature` draws `invalid_payment_header`. -/
theorem c8_validation_error_codes_witness :
    pipelineHeaderCheck uuidValidate uuidValidate
        (some (some ⟨none, some sampleUuid, false⟩))
      = PipeOut.err402 ErrCode.invalidPaymentHeader :=
  (c8_validation_error_codes uuidValidate uuidValidate
    ⟨none, some sampleUuid, false⟩).1 (Or.inl rfl)

/-- C8, counterexample to the claim as stated: the decoded payload
`{paymentId: <valid UUID>}` with `txSignature` missing is answered 402
`invalid_payment_header` (from the Joi middleware), not the claimed
`invalid_payment_payload`. -/
theorem c8_counterexample :
    pipelineHeaderCheck uuidValidate uuidValidate
        (some (some ⟨none, some sampleUuid, false⟩))
      = PipeOut.err402 ErrCode.invalidPaymentHeader ∧
    ErrCode.invalidPaymentHeader ≠ ErrCode.invalidPaymentPayload ∧
    uuidValidate sampleUuid = true := by
  exact ⟨rfl, by decide, by decide⟩

/-- C9.  When the selected primary provider and every remaining
provider fail, the post-verification pipeline answers HTTP 200 with
the JSON-RPC error envelope of code −32603 echoing the request id,
and the invoice stays marked used. -/
theorem c9_all_providers_fail (health : HealthMap) (ps : List Provider)
    (upstream : String → Option String) (body : RpcBody) (st : MemStore)
    (paymentId : String) (inv : Invoice) (now : ℤ)
    (hfail : ∀ p ∈ ps, upstream p.id = none)
    (hinv : st paymentId = some inv) :
    (handleAfterVerify now st paymentId health ps upstream body).1 = 200 ∧
    (handleAfterVerify now st paymentId health ps upstream body).2.1
      = ProxyResult.errorEnvelope (-32603) body.id ∧
    ∃ inv', (handleAfterVerify now st paymentId health ps upstream body).2.2 paymentId
      = some inv' ∧ inv'.used = true := by
  refine ⟨rfl, ?_, ?_⟩
  · show fetchWithBestProvider health ps upstream body
      = ProxyResult.errorEnvelope (-32603) body.id
    unfold fetchWithBestProvider
    cases hsel : selectBestProvider health ps
        (decide (body.method ∈ historicalMethods)) false with
    | none => simp [hsel]
    | some primary =>
      have hpmem := selectBestProvider_mem hsel
      have h1 : upstream primary.id = none := hfail primary hpmem
      have h2 : (ps.filter (fun p => !decide (p.id = primary.id))).findSome?
          (fun p => upstream p.id) = none := by
        rw [List.findSome?_eq_none_iff]
        intro x hx
        exact hfail x (List.mem_of_mem_filter hx)
      simp [hsel, h1, h2]
  · show ∃ inv', memMarkAsUsed now st paymentId paymentId = some inv' ∧ inv'.used = true
    unfold memMarkAsUsed
    rw [hinv]
    exact ⟨{ inv with used := true, usedAt := some now }, by simp, rfl⟩

/-- C9, witness for `c9_all_providers_fail`: the default registry with
every call failing, on a fresh invoice. -/
theorem c9_all_providers_fail_witness :
    (∀ p ∈ defaultProviders, (fun _ => (none : Option String)) p.id = none) ∧
    freshStore "p" = some freshInvoice ∧
    ((handleAfterVerify 5 freshStore "p" noHealth defaultProviders (fun _ => none)
        ⟨"getBlock", JsonId.num 1⟩).1 = 200 ∧
     (handleAfterVerify 5 freshStore "p" noHealth defaultProviders (fun _ => none)
        ⟨"getBlock", JsonId.num 1⟩).2.1
       = ProxyResult.errorEnvelope (-32603) (JsonId.num 1) ∧
     ∃ inv', (handleAfterVerify 5 freshStore "p" noHealth defaultProviders (fun _ => none)
        ⟨"getBlock", JsonId.num 1⟩).2.2 "p" = some inv' ∧ inv'.used = true) :=
  ⟨fun _ _ => rfl, rfl,
    c9_all_providers_fail noHealth defaultProviders (fun _ => none)
      ⟨"getBlock", JsonId.num 1⟩ freshStore "p" freshInvoice 5 (fun _ _ => rfl) rfl⟩

/-- Soundness of the balance scan: it only accepts on the strength of
a post row matched by account index to a pre row, on the expected
mint, with a positive in-tolerance change. -/
theorem scanBalances_sound (mint : String) (expected : ℤ)
    (pres : List TokenBal) :
    ∀ (posts : List TokenBal) (w a : Option String),
      scanBalances mint expected pres w posts = (true, a) →
      ∃ post ∈ posts, ∃ pre ∈ pres,
        pre.accountIndex = post.accountIndex ∧ post.mint = mint ∧
        amountMatches expected (post.amount - pre.amount) = true := by
  intro posts
  induction posts with
  | nil =>
    intro w a h
    simp [scanBalances] at h
  | cons post rest ih =>
    intro w a h
    unfold scanBalances at h
    cases hfind : pres.find? (fun p => p.accountIndex == post.accountIndex) with
    | none =>
      rw [hfind] at h
      obtain ⟨q, hq, pre, hpre, h1, h2, h3⟩ := ih w a h
      exact ⟨q, List.mem_cons_of_mem post hq, pre, hpre, h1, h2, h3⟩
    | some pre =>
      rw [hfind] at h
      dsimp only at h
      by_cases hm : post.mint ≠ mint
      · rw [if_pos hm] at h
        obtain ⟨q, hq, pre', hpre, h1, h2, h3⟩ := ih _ a h
        exact ⟨q, List.mem_cons_of_mem post hq, pre', hpre, h1, h2, h3⟩
      · rw [if_neg hm] at h
        push_neg at hm
        cases hacc : amountMatches expected (post.amount - pre.amount) with
        | true =>
          have hbeq := List.find?_some hfind
          have hidx : pre.accountIndex = post.accountIndex := by
            simpa using hbeq
          exact ⟨post, List.mem_cons_self post rest, pre,
            List.mem_of_find?_eq_some hfind, hidx, hm, hacc⟩
        | false =>
          rw [if_neg (by simp [hacc])] at h
          obtain ⟨q, hq, pre', hpre, h1, h2, h3⟩ := ih w a h
          exact ⟨q, List.mem_cons_of_mem post hq, pre', hpre, h1, h2, h3⟩

/-- C10.  The verifier returns `valid:true` only when some post
token-balance row has a matching pre row at the same account index on
the expected mint with an accepted change; a post row whose account
index is absent from the pre table is skipped, so it can never cause
acceptance even with the right mint and the exact expected amount (as
the concrete orphan-post transaction shows). -/
theorem c10_orphan_post_never_accepts :
    (∀ (meta : TxMeta) (expected : ℤ) (mint recipient : String),
      (verifyPaymentOnChain (some meta) expected mint recipient).valid = true →
      ∃ pres posts, meta.preTokenBalances = some pres ∧
        meta.postTokenBalances = some posts ∧
        ∃ post ∈ posts, ∃ pre ∈ pres,
          pre.accountIndex = post.accountIndex ∧ post.mint = mint ∧
          amountMatches expected (post.amount - pre.amount) = true) ∧
    (verifyPaymentOnChain
        (some ⟨false, some [⟨1, "M", 500, "o"⟩], some [⟨2, "M", 1000, "o"⟩]⟩)
        1000 "M" "R").valid = false := by
  refine ⟨?_, by decide⟩
  intro meta expected mint recipient hvalid
  obtain ⟨failed, preOpt, postOpt⟩ := meta
  unfold verifyPaymentOnChain at hvalid
  cases failed with
  | true => simp at hvalid
  | false =>
    simp only at hvalid
    cases preOpt with
    | none => simp at hvalid
    | some pres =>
      cases postOpt with
      | none => simp at hvalid
      | some posts =>
        simp only at hvalid
        by_cases hemp : pres.isEmpty ∨ posts.isEmpty
        · rw [if_pos hemp] at hvalid
          simp at hvalid
        · rw [if_neg hemp] at hvalid
          cases hscan : scanBalances mint expected pres none posts with
          | mk v a =>
            rw [hscan] at hvalid
            cases v with
            | false =>
              cases a <;> simp at hvalid
            | true =>
              obtain ⟨post, hpost, pre, hpre, h1, h2, h3⟩ :=
                scanBalances_sound mint expected pres posts none a hscan
              exact ⟨pres, posts, rfl, rfl, post, hpost, pre, hpre, h1, h2, h3⟩

/-- C10, witness for `c10_orphan_post_never_accepts`: an accepting
transaction (matched pair, exact amount) from which the matched-pair
evidence is extracted. -/
theorem c10_orphan_post_witness :
    (verifyPaymentOnChain
        (some ⟨false, some [⟨0, "M", 0, "o"⟩], some [⟨0, "M", 1000, "o"⟩]⟩)
        1000 "M" "R").valid = true ∧
    ∃ pres posts,
      (⟨false, some [⟨0, "M", 0, "o"⟩], some [⟨0, "M", 1000, "o"⟩]⟩ :
          TxMeta).preTokenBalances = some pres ∧
      (⟨false, some [⟨0, "M", 0, "o"⟩], some [⟨0, "M", 1000, "o"⟩]⟩ :
          TxMeta).postTokenBalances = some posts ∧
      ∃ post ∈ posts, ∃ pre ∈ pres,
        pre.accountIndex = post.accountIndex ∧ post.mint = "M" ∧
        amountMatches 1000 (post.amount - pre.amount) = true :=
  ⟨by decide,
    c10_orphan_post_never_accepts.1
      ⟨false, some [⟨0, "M", 0, "o"⟩], some [⟨0, "M", 1000, "o"⟩]⟩
      1000 "M" "R" (by decide)⟩

end SolHub
